import Mathlib

/-!
Verification development for the akmanager package cache (src/ak.js).

The embedding models the cache-core functions of `ak.js` over an explicit
world state:

* `getPackageVersion` (ak.js lines 28-36): registry version resolution with
  the process-local memory cache `versionCache`.
* `sanitizeInput` (lines 38-41): the package-name character filter.
* `cachePackage` (lines 70-102): fetch-and-store with digest verification
  and manifest registration.
* `getCachedPackage` (lines 104-120): manifest hit with re-verification and
  corruption eviction.
* `installPackages` (lines 137-167): modelled per package as `acquireOne`,
  covering sanitize, version resolution and the
  `getCachedPackage || cachePackage` acquisition chain (the trailing
  installer subprocess invocation is external glue and is not modelled).

State-changing primitives record a trace of the network and filesystem
operations they perform, so that claims about operation counts (downloads,
network calls, writes, renames) are directly statable.

External collaborators are modelled at their interface: the sha512 digest
primitive of node crypto is replaced by a concrete stand-in string digest
(only equality of digest strings matters to the code), `fetch` is a lookup
in the world registry and tarball tables, and `fsPromises.unlink` follows
the node semantics of rejecting with ENOENT on an absent path.
-/

namespace AkManager

/-- Association-list lookup by string key, first binding wins (models both a
JS object field access and a `Map.get`). -/
def alookup {α : Type} : List (String × α) → String → Option α
  | [], _ => none
  | e :: t, k => if e.1 = k then some e.2 else alookup t k

/-- Association-list key removal (models `delete obj[key]`). -/
def aremove {α : Type} : List (String × α) → String → List (String × α)
  | [], _ => []
  | e :: t, k => if e.1 = k then aremove t k else e :: aremove t k

/-- Association-list upsert (models `obj[key] = value` / `Map.set`). -/
def aput {α : Type} (l : List (String × α)) (k : String) (v : α) :
    List (String × α) :=
  (k, v) :: aremove l k

/-- The `dist` object of one registry version entry, carrying the
tarball url and the integrity string of `versions.<v>.dist`. -/
structure DistInfo where
  tarball : String
  integrity : String
deriving Repr, DecidableEq

/-- One entry of `data.versions`; the `dist` field may be absent from a
malformed registry response (JS `undefined`). -/
structure VersionInfo where
  dist : Option DistInfo
deriving Repr, DecidableEq

/-- The `dist-tags` object of a registry response. -/
structure DistTags where
  latest : String
deriving Repr, DecidableEq

/-- A parsed registry metadata response. `distTags = none` models a response
whose `dist-tags` property is absent (JS `undefined`); likewise
`versions = none` models an absent `versions` property. When `dist-tags`
is present its `latest` tag is modelled as present (the
present-object-without-latest corner is not exercised by any claim). -/
structure RegistryDoc where
  distTags : Option DistTags
  versions : Option (List (String × VersionInfo))
deriving Repr, DecidableEq

/-- The JSON body the registry returns for a missing package, as seen by
`cachePackage` (which never checks `res.ok`): it has neither `dist-tags`
nor a `versions` property. -/
def errorDoc : RegistryDoc := { distTags := none, versions := none }

/-- A manifest ledger entry: `manifest[key] = \x7b path, integrity \x7d`
(ak.js line 99). -/
structure ManifestEntry where
  path : String
  integrity : String
deriving Repr, DecidableEq

/-- The in-memory manifest mapping, keyed by strings of the form
`name@version`. -/
abbrev Manifest := List (String × ManifestEntry)

/-- The state of the persisted manifest document at `MANIFEST_PATH`:
the file may be absent, present but not valid JSON, or a serialized
manifest mapping. -/
inductive ManifestDoc
  | absent
  | unparsable
  | parsed (m : Manifest)
deriving Repr, DecidableEq

/-- The manifest load pattern of ak.js lines 98 and 105:
`fsPromises.readFile(MANIFEST_PATH, "utf8").then(JSON.parse).catch(() => (\x7b\x7d))`.
A missing file (readFile rejects) or unparsable content (JSON.parse throws)
is caught and yields the empty mapping; this function never throws. -/
def loadManifest : ManifestDoc → Manifest
  | .absent => []
  | .unparsable => []
  | .parsed m => m

/-- The manifest save pattern of ak.js lines 100 and 115:
`fsPromises.writeFile(MANIFEST_PATH, JSON.stringify(manifest, null, 2))`:
the persisted document now holds exactly the given mapping. -/
def saveManifest (m : Manifest) : ManifestDoc := .parsed m

/-- Errors thrown by the embedded code paths.

* `notFound`: `throw new Error("Package X not found")` (line 31);
* `undefinedAccess f`: the JS TypeError raised by reading property `f` of
  `undefined` (e.g. `data["dist-tags"].latest` with no dist-tags);
* `integrityFailed`: `throw new Error("Integrity check failed for ...")`
  (line 95);
* `invalidPackage`: `throw new Error("Invalid package: ...")` (line 39);
* `enoent`: a rejected node fs operation on an absent path (readFile or
  unlink). -/
inductive JsErr
  | notFound (pkg : String)
  | undefinedAccess (field : String)
  | integrityFailed (pkg version : String)
  | invalidPackage (pkg : String)
  | enoent (path : String)
deriving Repr, DecidableEq

/-- Observable network and filesystem operations, recorded in traces. -/
inductive Op
  | regFetch (pkg : String)
  | tarballFetch (url : String)
  | fsAccess (p : String)
  | fsRead (p : String)
  | fsWrite (p : String)
  | fsUnlink (p : String)
  | fsMkdir (p : String)
  | fsRename (src dst : String)
deriving Repr, DecidableEq

/-- Network operations: registry metadata requests and tarball downloads. -/
def Op.isNetwork : Op → Bool
  | .regFetch _ => true
  | .tarballFetch _ => true
  | _ => false

/-- Tarball download operations. -/
def Op.isDownload : Op → Bool
  | .tarballFetch _ => true
  | _ => false

/-- File write operations, with their target path. -/
def Op.writeTarget : Op → Option String
  | .fsWrite p => some p
  | _ => none

/-- Rename operations. -/
def Op.isRename : Op → Bool
  | .fsRename _ _ => true
  | _ => false

/-- The filesystem: a finite mapping from path to file content. -/
abbrev Fs := List (String × String)

/-- The world state shared by all embedded operations within one process:
the filesystem, the persisted manifest document, the process-local
`versionCache` Map (line 26), the registry metadata per package name, and
the tarball bytes per url. -/
structure World where
  fs : Fs
  manifestDoc : ManifestDoc
  versionCache : List (String × String)
  registry : List (String × RegistryDoc)
  tarballs : List (String × String)
deriving Repr, DecidableEq

/-- The cache directory (`AKMANAGER_CACHE_DIR` default, line 15), as an
abstract constant path. -/
def CACHE_DIR : String := "/home/.akmanager-cache"

/-- The manifest document path
`path.join(CACHE_DIR, "cache-manifest.json")` (line 16). -/
def MANIFEST_PATH : String := CACHE_DIR ++ "/cache-manifest.json"

/-- The deterministic canonical artifact path
`path.join(CACHE_DIR, pkg-version.tgz)` (line 77). -/
def cachePathFor (pkg version : String) : String :=
  CACHE_DIR ++ "/" ++ pkg ++ "-" ++ version ++ ".tgz"

/-- The manifest key `pkg@version` (lines 99, 106). -/
def keyFor (pkg version : String) : String := pkg ++ "@" ++ version

/-- Decimal digit character for `n % 10`. -/
def digitChar (n : Nat) : Char := Char.ofNat (48 + n % 10)

/-- Decimal digits of `n` (most significant first), fuel-bounded so that it
is structurally recursive and reduces inside the kernel. -/
def natDigits : Nat → Nat → List Char
  | 0, _ => []
  | fuel + 1, n => if n = 0 then [] else natDigits fuel (n / 10) ++ [digitChar n]

/-- Decimal rendering of a natural number below `10 ^ 8`. -/
def natRepr (n : Nat) : String :=
  if n = 0 then "0" else String.mk (natDigits 8 n)

/-- Stand-in for the sha512/base64 digest of node crypto
(`createHash("sha512") ... digest("base64")`). The code only ever compares
digest strings for equality, so any concrete total string function models
the collaborator at its interface. -/
def sha512base64 (s : String) : String :=
  natRepr (s.data.foldl (fun a c => (a * 131 + c.toNat) % 1000003) 7)

/-- Decidable equality of results (`Except` carries no instance of its
own in this toolchain). -/
instance {ε α : Type} [DecidableEq ε] [DecidableEq α] :
    DecidableEq (Except ε α) := fun x y =>
  match x, y with
  | .ok a, .ok b =>
    if h : a = b then .isTrue (by rw [h])
    else .isFalse (fun hc => by cases hc; exact h rfl)
  | .ok _, .error _ => .isFalse (fun hc => by cases hc)
  | .error _, .ok _ => .isFalse (fun hc => by cases hc)
  | .error a, .error b =>
    if h : a = b then .isTrue (by rw [h])
    else .isFalse (fun hc => by cases hc; exact h rfl)

/-- The integrity string format computed at line 93:
`sha512-` followed by the base64 digest. -/
def integrityStringOf (s : String) : String := "sha512-" ++ sha512base64 s

/-- Embedding of `getPackageVersion(pkg, forceLatest)` (ak.js lines 28-36).

```js
if (!forceLatest && versionCache.has(pkg)) return versionCache.get(pkg);
const res = await fetch(REGISTRY_URL/pkg);
if (!res.ok) throw new Error(Package pkg not found);
const data = await res.json();
const version = data["dist-tags"].latest;
versionCache.set(pkg, version);
return version;
```

`res.ok` is false exactly when the registry has no document for `pkg`;
an ok response with no `dist-tags` property raises the JS TypeError of
reading `latest` on `undefined`. -/
def getPackageVersion (w : World) (pkg : String) (forceLatest : Bool) :
    Except JsErr String × World × List Op :=
  match (if forceLatest then none else alookup w.versionCache pkg) with
  | some v => (.ok v, w, [])
  | none =>
    let t0 : List Op := [.regFetch pkg]
    match alookup w.registry pkg with
    | none => (.error (.notFound pkg), w, t0)
    | some data =>
      match data.distTags with
      | none => (.error (.undefinedAccess "latest"), w, t0)
      | some dt =>
        (.ok dt.latest,
          { w with versionCache := aput w.versionCache pkg dt.latest }, t0)

/-- The character class of the `sanitizeInput` regular expression
`[a-zA-Z0-9-_@\/]` (ak.js line 39). -/
def validPkgChar (c : Char) : Bool :=
  c.isAlphanum || c = '-' || c = '_' || c = '@' || c = '/'

/-- Whether `pkg` matches `/^[a-zA-Z0-9-_@\/]+$/`: nonempty and every
character in the class. -/
def validPkgName (pkg : String) : Bool :=
  !pkg.data.isEmpty && pkg.data.all validPkgChar

/-- Embedding of `sanitizeInput` (ak.js lines 38-41): pure validation, no
world access and no operations. -/
def sanitizeInput (pkg : String) : Except JsErr String :=
  if validPkgName pkg then .ok pkg else .error (.invalidPackage pkg)

/-- Embedding of `cachePackage(pkg, version)` (ak.js lines 70-102), the
fetch-and-store operation. Line by line:

```js
const res = await fetch(REGISTRY_URL/pkg);            // res.ok never checked
const data = await res.json();
const pkgVersion = version === "latest" ? data["dist-tags"].latest : version;
const tarballUrl = data.versions[pkgVersion].dist.tarball;
const integrity = data.versions[pkgVersion].dist.integrity;
const cachePath = path.join(CACHE_DIR, pkg-pkgVersion.tgz);
await fsPromises.mkdir(CACHE_DIR, ...);
if (!(await fsPromises.access(cachePath)...)) \x7b download into cachePath \x7d
hash over await fsPromises.readFile(cachePath);
if (sha512-digest !== integrity) \x7b unlink(cachePath); throw \x7d
manifest = readFile(MANIFEST_PATH).then(JSON.parse).catch(empty);
manifest[pkg@pkgVersion] = \x7b path: cachePath, integrity \x7d;
writeFile(MANIFEST_PATH, JSON.stringify(manifest));
return cachePath;
```

Property reads on `undefined` raise the corresponding `undefinedAccess`
TypeError; the tarball write streams directly into the canonical
`cachePath` (no temporary path, no rename). -/
def cachePackage (w : World) (pkg version : String) :
    Except JsErr String × World × List Op :=
  let t0 : List Op := [.regFetch pkg]
  let data := (alookup w.registry pkg).getD errorDoc
  let pv : Except JsErr String :=
    if version = "latest" then
      match data.distTags with
      | none => .error (.undefinedAccess "latest")
      | some dt => .ok dt.latest
    else .ok version
  match pv with
  | .error e => (.error e, w, t0)
  | .ok pkgVersion =>
    match data.versions with
    | none => (.error (.undefinedAccess pkgVersion), w, t0)
    | some versions =>
      match alookup versions pkgVersion with
      | none => (.error (.undefinedAccess "dist"), w, t0)
      | some vi =>
        match vi.dist with
        | none => (.error (.undefinedAccess "tarball"), w, t0)
        | some d =>
          let cachePath := cachePathFor pkg pkgVersion
          let t1 := t0 ++ [Op.fsMkdir CACHE_DIR, Op.fsAccess cachePath]
          let dl : Fs × List Op :=
            match alookup w.fs cachePath with
            | some _ => (w.fs, t1)
            | none =>
              let bytes := (alookup w.tarballs d.tarball).getD ""
              (aput w.fs cachePath bytes,
                t1 ++ [Op.tarballFetch d.tarball, Op.fsWrite cachePath])
          let t2 := dl.2 ++ [Op.fsRead cachePath]
          match alookup dl.1 cachePath with
          | none => (.error (.enoent cachePath), { w with fs := dl.1 }, t2)
          | some content =>
            if "sha512-" ++ sha512base64 content = d.integrity then
              let m2 := aput (loadManifest w.manifestDoc)
                (keyFor pkg pkgVersion)
                { path := cachePath, integrity := d.integrity }
              (.ok cachePath,
                { w with fs := dl.1, manifestDoc := saveManifest m2 },
                t2 ++ [Op.fsRead MANIFEST_PATH, Op.fsWrite MANIFEST_PATH])
            else
              (.error (.integrityFailed pkg pkgVersion),
                { w with fs := aremove dl.1 cachePath },
                t2 ++ [Op.fsUnlink cachePath])

/-- Embedding of `getCachedPackage(pkg, version)` (ak.js lines 104-120):

```js
manifest = readFile(MANIFEST_PATH).then(JSON.parse).catch(empty);
const key = pkg@version;
if (manifest[key]) \x7b
  const \x7b path: cachePath, integrity \x7d = manifest[key];
  hash over await fsPromises.readFile(cachePath);   // rejects if absent
  if (sha512-digest !== integrity) \x7b
    unlink(cachePath); delete manifest[key];
    writeFile(MANIFEST_PATH, ...); return null;
  \x7d
  return cachePath;
\x7d
return null;
``` -/
def getCachedPackage (w : World) (pkg version : String) :
    Except JsErr (Option String) × World × List Op :=
  let t0 : List Op := [.fsRead MANIFEST_PATH]
  let manifest := loadManifest w.manifestDoc
  let key := keyFor pkg version
  match alookup manifest key with
  | none => (.ok none, w, t0)
  | some entry =>
    let t1 := t0 ++ [Op.fsRead entry.path]
    match alookup w.fs entry.path with
    | none => (.error (.enoent entry.path), w, t1)
    | some content =>
      if "sha512-" ++ sha512base64 content = entry.integrity then
        (.ok (some entry.path), w, t1)
      else
        (.ok none,
          { w with fs := aremove w.fs entry.path,
                   manifestDoc := saveManifest (aremove manifest key) },
          t1 ++ [Op.fsUnlink entry.path, Op.fsWrite MANIFEST_PATH])

/-- Placeholder content of the default `package.json` document written by
`ensurePackageJson` (ak.js lines 122-135); its text is never inspected. -/
def defaultPkgJsonText : String := "default-package-json"

/-- Embedding of `ensurePackageJson` (ak.js lines 122-135): probe for
`package.json` and create a default one when absent. -/
def ensurePackageJson (w : World) : World × List Op :=
  match alookup w.fs "package.json" with
  | some _ => (w, [.fsAccess "package.json"])
  | none =>
    ({ w with fs := aput w.fs "package.json" defaultPkgJsonText },
      [.fsAccess "package.json", .fsWrite "package.json"])

/-- Embedding of the per-package acquisition pipeline of `installPackages`
(ak.js lines 137-155) for a single package name:

```js
const safePackages = packages.map(sanitizeInput);     // throws before any io
if (!options.global) await ensurePackageJson();
const version = await getPackageVersion(pkg, options.force);
const cachePath = await getCachedPackage(pkg, version) || await cachePackage(pkg, version);
```

The subsequent installer subprocess invocation (`execPromise`) is external
glue outside the cache core and is not modelled. -/
def acquireOne (w : World) (pkg : String) (force globalFlag : Bool) :
    Except JsErr String × World × List Op :=
  match sanitizeInput pkg with
  | .error e => (.error e, w, [])
  | .ok p =>
    let s1 : World × List Op :=
      if globalFlag then (w, []) else ensurePackageJson w
    match getPackageVersion s1.1 p force with
    | (.error e, w2, t) => (.error e, w2, s1.2 ++ t)
    | (.ok version, w2, t1) =>
      match getCachedPackage w2 p version with
      | (.error e, w3, t2) => (.error e, w3, s1.2 ++ t1 ++ t2)
      | (.ok (some pth), w3, t2) => (.ok pth, w3, s1.2 ++ t1 ++ t2)
      | (.ok none, w3, t2) =>
        match cachePackage w3 p version with
        | (r, w4, t3) => (r, w4, s1.2 ++ t1 ++ t2 ++ t3)

/-- The eviction primitive the source uses: `fsPromises.unlink(path)`
(ak.js lines 94 and 112). Per node fs semantics, unlinking an absent path
rejects with `ENOENT`; unlinking a present path removes it. -/
def unlinkFs (fs : Fs) (p : String) : Except JsErr Fs × List Op :=
  (match alookup fs p with
    | some _ => .ok (aremove fs p)
    | none => .error (.enoent p),
   [Op.fsUnlink p])

/-! ## Interleaving semantics for concurrent acquisitions

`installPackages` runs its per-package bodies under `Promise.all` (lines
148-155), so two logically concurrent acquisitions interleave at `await`
boundaries while sharing the world. The program counter below cuts the
acquisition pipeline at (a coarsening of) those boundaries; coarsening
merges adjacent awaits into one atomic step, which only removes
interleavings, so every behaviour of this machine is a behaviour of the
source. The crucial boundary for claim C1 is kept exact: the
`fsPromises.access(cachePath)` existence probe (line 80) completes, and
its boolean is held in the continuation, before the tarball download
(lines 81-89) begins. -/

/-- Program counter of one in-flight acquisition for a fixed package.

* `start`: about to run `getPackageVersion`;
* `cacheCheck v`: version resolved, about to run `getCachedPackage`;
* `metaFetch v`: cache miss, about to run the registry fetch, resolution,
  mkdir and access probe of `cachePackage`;
* `maybeDownload pv url integ present`: the access probe answered
  `present`; about to download (or skip) accordingly;
* `verify pv integ`: artifact on disk (from this task or another), about
  to read it back, check the digest, and register or evict;
* `finished r`: the acquisition settled with result `r`. -/
inductive CPc
  | start
  | cacheCheck (version : String)
  | metaFetch (version : String)
  | maybeDownload (pkgVersion url integ : String) (present : Bool)
  | verify (pkgVersion integ : String)
  | finished (r : Except JsErr String)
deriving Repr, DecidableEq

/-- One atomic step of an in-flight acquisition of `pkg` over the shared
world. Each arm is the corresponding segment of `getPackageVersion`,
`getCachedPackage` and `cachePackage` above. -/
def cstep (pkg : String) (w : World) : CPc → World × CPc × List Op
  | .start =>
    match getPackageVersion w pkg false with
    | (.ok v, w', t) => (w', .cacheCheck v, t)
    | (.error e, w', t) => (w', .finished (.error e), t)
  | .cacheCheck v =>
    match getCachedPackage w pkg v with
    | (.ok (some p), w', t) => (w', .finished (.ok p), t)
    | (.ok none, w', t) => (w', .metaFetch v, t)
    | (.error e, w', t) => (w', .finished (.error e), t)
  | .metaFetch v =>
    let t0 : List Op := [.regFetch pkg]
    let data := (alookup w.registry pkg).getD errorDoc
    let pv : Except JsErr String :=
      if v = "latest" then
        match data.distTags with
        | none => .error (.undefinedAccess "latest")
        | some dt => .ok dt.latest
      else .ok v
    match pv with
    | .error e => (w, .finished (.error e), t0)
    | .ok pkgVersion =>
      match data.versions with
      | none => (w, .finished (.error (.undefinedAccess pkgVersion)), t0)
      | some versions =>
        match alookup versions pkgVersion with
        | none => (w, .finished (.error (.undefinedAccess "dist")), t0)
        | some vi =>
          match vi.dist with
          | none => (w, .finished (.error (.undefinedAccess "tarball")), t0)
          | some d =>
            let cachePath := cachePathFor pkg pkgVersion
            (w, .maybeDownload pkgVersion d.tarball d.integrity
                ((alookup w.fs cachePath).isSome),
              t0 ++ [Op.fsMkdir CACHE_DIR, Op.fsAccess cachePath])
  | .maybeDownload pv url integ present =>
    if present then (w, .verify pv integ, [])
    else
      let bytes := (alookup w.tarballs url).getD ""
      ({ w with fs := aput w.fs (cachePathFor pkg pv) bytes },
        .verify pv integ,
        [Op.tarballFetch url, Op.fsWrite (cachePathFor pkg pv)])
  | .verify pv integ =>
    let cachePath := cachePathFor pkg pv
    match alookup w.fs cachePath with
    | none => (w, .finished (.error (.enoent cachePath)), [Op.fsRead cachePath])
    | some content =>
      if "sha512-" ++ sha512base64 content = integ then
        let m2 := aput (loadManifest w.manifestDoc) (keyFor pkg pv)
          { path := cachePath, integrity := integ }
        ({ w with manifestDoc := saveManifest m2 },
          .finished (.ok cachePath),
          [Op.fsRead cachePath, Op.fsRead MANIFEST_PATH,
           Op.fsWrite MANIFEST_PATH])
      else
        ({ w with fs := aremove w.fs cachePath },
          .finished (.error (.integrityFailed pkg pv)),
          [Op.fsRead cachePath, Op.fsUnlink cachePath])
  | .finished r => (w, .finished r, [])

/-- The shared system state of two concurrent acquisitions of the same
package: the world, both program counters and the combined trace. -/
structure Sys where
  w : World
  a : CPc
  b : CPc
  tr : List Op
deriving Repr, DecidableEq

/-- Scheduler step: `true` runs task A, `false` runs task B. -/
def sysStep (pkg : String) (s : Sys) (turn : Bool) : Sys :=
  if turn then
    match cstep pkg s.w s.a with
    | (w', a', t) => { s with w := w', a := a', tr := s.tr ++ t }
  else
    match cstep pkg s.w s.b with
    | (w', b', t) => { s with w := w', b := b', tr := s.tr ++ t }

/-- Run two concurrent acquisitions of `pkg` from world `w` under the
given schedule of turns. -/
def exec2 (pkg : String) (w : World) (sched : List Bool) : Sys :=
  sched.foldl (sysStep pkg) { w := w, a := .start, b := .start, tr := [] }

/-! ## Concrete scenario worlds shared by several claims -/

/-- Demo tarball url. -/
def demoUrl : String := "https://registry.example/lodash-1.0.0.tgz"

/-- Demo tarball bytes. -/
def demoBytes : String := "LODASH-TARBALL-BYTES"

/-- Dist whose integrity matches the given tarball bytes. -/
def missDist (url bytes : String) : DistInfo :=
  { tarball := url, integrity := integrityStringOf bytes }

/-- Coherent registry document: latest tag `v`, one version `v` whose
dist integrity matches the bytes at `url`. -/
def missDoc (v url bytes : String) : RegistryDoc :=
  { distTags := some { latest := v },
    versions := some [(v, { dist := some (missDist url bytes) })] }

/-- Parameterised fresh world for a package `pkg` whose latest tag is `v`,
with a coherent tarball: the registry-reported integrity matches the bytes
served at the tarball url. -/
def missWorld (pkg v url bytes : String) : World :=
  { fs := [], manifestDoc := .absent, versionCache := [],
    registry := [(pkg, missDoc v url bytes)],
    tarballs := [(url, bytes)] }

/-- Demo registry document for package `lodash`, latest tag `1.0.0`,
with a well-formed dist whose integrity matches `demoBytes`. -/
def demoDoc : RegistryDoc := missDoc "1.0.0" demoUrl demoBytes

/-- A fresh world: empty cache and manifest, one package in the registry. -/
def freshWorld : World := missWorld "lodash" "1.0.0" demoUrl demoBytes

/-- Fresh world whose canonical cache path already holds tampered bytes
that do not hash to the registry-reported integrity. -/
def tamperedWorld : World :=
  { missWorld "lodash" "1.0.0" demoUrl demoBytes with
      fs := [(cachePathFor "lodash" "1.0.0", "TAMPERED")] }

/-- Fresh world whose tarball host serves bytes that do not hash to the
registry-reported integrity. -/
def evilWorld : World :=
  { missWorld "lodash" "1.0.0" demoUrl demoBytes with
      tarballs := [(demoUrl, "EVIL-BYTES")] }

/-- The version resolution step of `cachePackage` succeeds with `pv`. -/
def resolvesTo (doc : RegistryDoc) (version pv : String) : Prop :=
  (if version = "latest" then
    match doc.distTags with
    | none => Except.error (JsErr.undefinedAccess "latest")
    | some dt => Except.ok dt.latest
   else Except.ok version) = Except.ok pv

/-- World after `getPackageVersion` has resolved and cached the version on
a fresh world. -/
def missWorld1 (pkg v url bytes : String) : World :=
  { fs := [], manifestDoc := .absent, versionCache := aput [] pkg v,
    registry := [(pkg, missDoc v url bytes)], tarballs := [(url, bytes)] }

/-- World after a complete fresh acquisition: artifact stored at the
canonical path, manifest entry registered, version cached in memory. -/
def missWorld2 (pkg v url bytes : String) : World :=
  { fs := aput [] (cachePathFor pkg v) bytes,
    manifestDoc := saveManifest (aput [] (keyFor pkg v)
      { path := cachePathFor pkg v, integrity := integrityStringOf bytes }),
    versionCache := aput [] pkg v,
    registry := [(pkg, missDoc v url bytes)],
    tarballs := [(url, bytes)] }

/-- World in which a completed acquisition was later corrupted on disk:
the manifest entry is intact but the canonical path holds other bytes. -/
def corruptWorld : World :=
  { missWorld2 "lodash" "1.0.0" demoUrl demoBytes with
      fs := [(cachePathFor "lodash" "1.0.0", "CORRUPTED")] }

/-- World whose persisted manifest document holds unparsable content. -/
def garbledWorld : World :=
  { missWorld "lodash" "1.0.0" demoUrl demoBytes with
      manifestDoc := .unparsable }

/-- Registry document with a version entry that lacks `dist`. -/
def noDistDoc : RegistryDoc :=
  { distTags := some { latest := "2.0.0" },
    versions := some [("2.0.0", { dist := none })] }

/-- Fresh world whose canonical path already holds exactly the bytes the
registry integrity describes (a pre-populated, untampered cache file with
no manifest entry yet). -/
def preSeededWorld : World :=
  { missWorld "lodash" "1.0.0" demoUrl demoBytes with
      fs := [(cachePathFor "lodash" "1.0.0", demoBytes)] }

/-- Formalisation of the write-then-rename discipline claimed by the spec
(stated from the spec words, for comparison with the code): durable
content may reach the canonical artifact path and the manifest document
path only via a rename from a temporary path, so no write operation in a
trace may target either of them directly. -/
def atomicWriteDiscipline (canonical : String) (tr : List Op) : Bool :=
  tr.all fun op =>
    match op with
    | .fsWrite p => decide (¬ p = canonical) && decide (¬ p = MANIFEST_PATH)
    | _ => true

/-! ## Characterization lemmas for the embedded operations -/

theorem alookup_aremove_self {α : Type} (l : List (String × α)) (k : String) :
    alookup (aremove l k) k = none := by
  induction l with
  | nil => rfl
  | cons e t ih =>
    rw [aremove]
    by_cases he : e.1 = k
    · rw [if_pos he]; exact ih
    · rw [if_neg he, alookup, if_neg he]; exact ih

theorem alookup_aremove_ne {α : Type} (l : List (String × α)) (k k' : String)
    (h : k' ≠ k) : alookup (aremove l k) k' = alookup l k' := by
  induction l with
  | nil => rfl
  | cons e t ih =>
    rw [aremove]
    by_cases he : e.1 = k
    · have hne : ¬ e.1 = k' := fun hk' => h (hk'.symm.trans he)
      rw [if_pos he, alookup, if_neg hne]; exact ih
    · by_cases he' : e.1 = k'
      · rw [if_neg he, alookup, if_pos he', alookup, if_pos he']
      · rw [if_neg he, alookup, if_neg he', alookup, if_neg he']; exact ih

theorem alookup_aput_self {α : Type} (l : List (String × α)) (k : String)
    (v : α) : alookup (aput l k v) k = some v := by
  rw [aput, alookup, if_pos rfl]

theorem alookup_aput_ne {α : Type} (l : List (String × α)) (k k' : String)
    (v : α) (h : k' ≠ k) : alookup (aput l k v) k' = alookup l k' := by
  have hk : ¬ (k = k') := fun hk => h hk.symm
  rw [aput, alookup, if_neg hk]
  exact alookup_aremove_ne l k k' h

theorem alookup_cons_self {α : Type} (t : List (String × α)) (k : String)
    (v : α) : alookup ((k, v) :: t) k = some v := by
  simp [alookup]

theorem alookup_nil {α : Type} (k : String) :
    alookup ([] : List (String × α)) k = none := rfl

theorem sanitize_ok (pkg : String) (h : validPkgName pkg = true) :
    sanitizeInput pkg = .ok pkg := by
  simp [sanitizeInput, h]

theorem getPackageVersion_cached (w : World) (pkg v : String)
    (h : alookup w.versionCache pkg = some v) :
    getPackageVersion w pkg false = (.ok v, w, []) := by
  simp [getPackageVersion, h]

theorem getPackageVersion_fresh (w : World) (pkg : String)
    (doc : RegistryDoc) (dt : DistTags)
    (hvc : alookup w.versionCache pkg = none)
    (hreg : alookup w.registry pkg = some doc)
    (hdt : doc.distTags = some dt) :
    getPackageVersion w pkg false =
      (.ok dt.latest,
       { w with versionCache := aput w.versionCache pkg dt.latest },
       [Op.regFetch pkg]) := by
  simp [getPackageVersion, hvc, hreg, hdt]

theorem getCachedPackage_noEntry (w : World) (pkg v : String)
    (h : alookup (loadManifest w.manifestDoc) (keyFor pkg v) = none) :
    getCachedPackage w pkg v = (.ok none, w, [Op.fsRead MANIFEST_PATH]) := by
  simp [getCachedPackage, h]

theorem getCachedPackage_hit (w : World) (pkg v : String)
    (entry : ManifestEntry) (content : String)
    (hm : alookup (loadManifest w.manifestDoc) (keyFor pkg v) = some entry)
    (hf : alookup w.fs entry.path = some content)
    (hd : "sha512-" ++ sha512base64 content = entry.integrity) :
    getCachedPackage w pkg v =
      (.ok (some entry.path), w,
       [Op.fsRead MANIFEST_PATH, Op.fsRead entry.path]) := by
  simp [getCachedPackage, hm, hf, hd]

theorem getCachedPackage_corrupt (w : World) (pkg v : String)
    (entry : ManifestEntry) (content : String)
    (hm : alookup (loadManifest w.manifestDoc) (keyFor pkg v) = some entry)
    (hf : alookup w.fs entry.path = some content)
    (hd : ¬ "sha512-" ++ sha512base64 content = entry.integrity) :
    getCachedPackage w pkg v =
      (.ok none,
       { w with fs := aremove w.fs entry.path,
                manifestDoc := saveManifest
                  (aremove (loadManifest w.manifestDoc) (keyFor pkg v)) },
       [Op.fsRead MANIFEST_PATH, Op.fsRead entry.path,
        Op.fsUnlink entry.path, Op.fsWrite MANIFEST_PATH]) := by
  simp [getCachedPackage, hm, hf, hd]

theorem resolvesTo_literal (doc : RegistryDoc) (v : String)
    (h : v ≠ "latest") : resolvesTo doc v v := by
  simp [resolvesTo, h]

theorem resolvesTo_self (doc : RegistryDoc) (v : String)
    (hdt : doc.distTags = some { latest := v }) : resolvesTo doc v v := by
  by_cases h : v = "latest"
  · subst h; simp [resolvesTo, hdt]
  · exact resolvesTo_literal doc v h

theorem getD_cons_self {α : Type} (t : List (String × α)) (k : String)
    (v dflt : α) : (alookup ((k, v) :: t) k).getD dflt = v := by
  rw [alookup_cons_self]; rfl

theorem cachePackage_present (w : World) (pkg v pv : String)
    (doc : RegistryDoc) (vs : List (String × VersionInfo)) (d : DistInfo)
    (c : String)
    (hdata : (alookup w.registry pkg).getD errorDoc = doc)
    (hpv : resolvesTo doc v pv)
    (hver : doc.versions = some vs)
    (hvi : alookup vs pv = some { dist := some d })
    (hfs : alookup w.fs (cachePathFor pkg pv) = some c) :
    cachePackage w pkg v =
      (if "sha512-" ++ sha512base64 c = d.integrity then
        (.ok (cachePathFor pkg pv),
         { w with manifestDoc := saveManifest
                                  (aput (loadManifest w.manifestDoc) (keyFor pkg pv)
                                    { path := cachePathFor pkg pv, integrity := d.integrity }) },
         [Op.regFetch pkg, Op.fsMkdir CACHE_DIR,
          Op.fsAccess (cachePathFor pkg pv), Op.fsRead (cachePathFor pkg pv),
          Op.fsRead MANIFEST_PATH, Op.fsWrite MANIFEST_PATH])
      else
        (.error (.integrityFailed pkg pv),
         { w with fs := aremove w.fs (cachePathFor pkg pv) },
         [Op.regFetch pkg, Op.fsMkdir CACHE_DIR,
          Op.fsAccess (cachePathFor pkg pv), Op.fsRead (cachePathFor pkg pv),
          Op.fsUnlink (cachePathFor pkg pv)])) := by
  unfold cachePackage
  unfold resolvesTo at hpv
  simp only [hdata, hpv, hver, hvi, hfs]
  by_cases hd : "sha512-" ++ sha512base64 c = d.integrity
  · simp [hd]
  · simp [hd]

theorem cachePackage_absent (w : World) (pkg v pv : String)
    (doc : RegistryDoc) (vs : List (String × VersionInfo)) (d : DistInfo)
    (bytes : String)
    (hdata : (alookup w.registry pkg).getD errorDoc = doc)
    (hpv : resolvesTo doc v pv)
    (hver : doc.versions = some vs)
    (hvi : alookup vs pv = some { dist := some d })
    (hfs : alookup w.fs (cachePathFor pkg pv) = none)
    (htar : (alookup w.tarballs d.tarball).getD "" = bytes) :
    cachePackage w pkg v =
      (if "sha512-" ++ sha512base64 bytes = d.integrity then
        (.ok (cachePathFor pkg pv),
         { w with fs := aput w.fs (cachePathFor pkg pv) bytes,
                  manifestDoc := saveManifest
                                   (aput (loadManifest w.manifestDoc) (keyFor pkg pv)
                                     { path := cachePathFor pkg pv, integrity := d.integrity }) },
         [Op.regFetch pkg, Op.fsMkdir CACHE_DIR,
          Op.fsAccess (cachePathFor pkg pv), Op.tarballFetch d.tarball,
          Op.fsWrite (cachePathFor pkg pv), Op.fsRead (cachePathFor pkg pv),
          Op.fsRead MANIFEST_PATH, Op.fsWrite MANIFEST_PATH])
      else
        (.error (.integrityFailed pkg pv),
         { w with fs := aremove (aput w.fs (cachePathFor pkg pv) bytes)
                          (cachePathFor pkg pv) },
         [Op.regFetch pkg, Op.fsMkdir CACHE_DIR,
          Op.fsAccess (cachePathFor pkg pv), Op.tarballFetch d.tarball,
          Op.fsWrite (cachePathFor pkg pv), Op.fsRead (cachePathFor pkg pv),
          Op.fsUnlink (cachePathFor pkg pv)])) := by
  unfold cachePackage
  unfold resolvesTo at hpv
  simp only [hdata, hpv, hver, hvi, hfs, htar, alookup_aput_self]
  by_cases hd : "sha512-" ++ sha512base64 bytes = d.integrity
  · simp [hd]
  · simp [hd]

/-- Full acquisition on a manifest hit: with the version in the memory
cache, a manifest entry whose on-disk file verifies, `acquireOne` returns
the recorded path, changes nothing, and performs only the two file reads. -/
theorem acquireOne_hit (w : World) (pkg v : String) (entry : ManifestEntry)
    (content : String)
    (hname : validPkgName pkg = true)
    (hvc : alookup w.versionCache pkg = some v)
    (hm : alookup (loadManifest w.manifestDoc) (keyFor pkg v) = some entry)
    (hf : alookup w.fs entry.path = some content)
    (hd : "sha512-" ++ sha512base64 content = entry.integrity) :
    acquireOne w pkg false true =
      (.ok entry.path, w, [Op.fsRead MANIFEST_PATH, Op.fsRead entry.path]) := by
  simp [acquireOne, sanitize_ok pkg hname, getPackageVersion_cached w pkg v hvc,
    getCachedPackage_hit w pkg v entry content hm hf hd]

/-- Full acquisition on a fresh world: resolves, misses the cache,
downloads once, verifies, registers the manifest entry and returns the
canonical path. -/
theorem acquireOne_missWorld_eq (pkg v url bytes : String)
    (hname : validPkgName pkg = true) :
    acquireOne (missWorld pkg v url bytes) pkg false true =
      (.ok (cachePathFor pkg v), missWorld2 pkg v url bytes,
       [Op.regFetch pkg, Op.fsRead MANIFEST_PATH, Op.regFetch pkg,
        Op.fsMkdir CACHE_DIR, Op.fsAccess (cachePathFor pkg v),
        Op.tarballFetch url, Op.fsWrite (cachePathFor pkg v),
        Op.fsRead (cachePathFor pkg v), Op.fsRead MANIFEST_PATH,
        Op.fsWrite MANIFEST_PATH]) := by
  have h1 : getPackageVersion (missWorld pkg v url bytes) pkg false
      = (.ok v, missWorld1 pkg v url bytes, [Op.regFetch pkg]) :=
    getPackageVersion_fresh _ pkg (missDoc v url bytes) { latest := v }
      rfl (alookup_cons_self _ _ _) rfl
  have h2 : getCachedPackage (missWorld1 pkg v url bytes) pkg v
      = (.ok none, missWorld1 pkg v url bytes, [Op.fsRead MANIFEST_PATH]) :=
    getCachedPackage_noEntry (missWorld1 pkg v url bytes) pkg v rfl
  have h3 : cachePackage (missWorld1 pkg v url bytes) pkg v
      = (.ok (cachePathFor pkg v), missWorld2 pkg v url bytes,
         [Op.regFetch pkg, Op.fsMkdir CACHE_DIR,
          Op.fsAccess (cachePathFor pkg v), Op.tarballFetch url,
          Op.fsWrite (cachePathFor pkg v), Op.fsRead (cachePathFor pkg v),
          Op.fsRead MANIFEST_PATH, Op.fsWrite MANIFEST_PATH]) := by
    rw [cachePackage_absent (missWorld1 pkg v url bytes) pkg v v
      (missDoc v url bytes) [(v, { dist := some (missDist url bytes) })]
      (missDist url bytes) bytes (getD_cons_self _ _ _ _)
      (resolvesTo_self _ _ rfl) rfl (alookup_cons_self _ _ _) rfl
      (getD_cons_self _ _ _ _)]
    rw [if_pos (show "sha512-" ++ sha512base64 bytes
      = (missDist url bytes).integrity from rfl)]
    rfl
  simp [acquireOne, sanitize_ok pkg hname, h1, h2, h3]

/-! ## Claim theorems -/

/-- C1 (counterexample): the claim says N concurrent `acquire` calls for
the same concrete (name, version) perform exactly one tarball download and
one verification. In the interleaving in which both callers complete the
`fsPromises.access` existence probe before either download finishes (a
schedule the source permits, having no single-flight map), both callers
succeed with the same store path but the system performs TWO tarball
downloads and TWO digest verifications (two reads of the canonical path),
refuting the exactly-one claim. -/
theorem c1_counterexample :
    ((exec2 "lodash" freshWorld
        [true, true, true, false, false, false, true, false, true,
         false]).a
      = .finished (.ok (cachePathFor "lodash" "1.0.0"))) ∧
    ((exec2 "lodash" freshWorld
        [true, true, true, false, false, false, true, false, true,
         false]).b
      = .finished (.ok (cachePathFor "lodash" "1.0.0"))) ∧
    (((exec2 "lodash" freshWorld
        [true, true, true, false, false, false, true, false, true,
         false]).tr.filter Op.isDownload).length = 2) ∧
    (((exec2 "lodash" freshWorld
        [true, true, true, false, false, false, true, false, true,
         false]).tr.filter
          (fun op => op = Op.fsRead (cachePathFor "lodash" "1.0.0"))).length
      = 2) := by
  decide

/-- C1 (amended): within one process there is no single-flight
deduplication, so concurrent acquisitions of the same (name, version) can
each download the tarball; but acquisitions that are serialized perform
exactly one download in total and every caller receives the same canonical
store path: on a fresh world the first `acquireOne` downloads once and
returns the canonical path, and a second `acquireOne` on the resulting
world performs zero downloads and returns the same path. -/
theorem c1_theorem (pkg v url bytes : String)
    (hname : validPkgName pkg = true) :
    (acquireOne (missWorld pkg v url bytes) pkg false true).1
        = .ok (cachePathFor pkg v) ∧
    ((acquireOne (missWorld pkg v url bytes) pkg false true).2.2.filter
        Op.isDownload).length = 1 ∧
    (acquireOne
        ((acquireOne (missWorld pkg v url bytes) pkg false true).2.1)
        pkg false true).1 = .ok (cachePathFor pkg v) ∧
    ((acquireOne
        ((acquireOne (missWorld pkg v url bytes) pkg false true).2.1)
        pkg false true).2.2.filter Op.isDownload) = [] := by
  have e1 := acquireOne_missWorld_eq pkg v url bytes hname
  have e2 : acquireOne (missWorld2 pkg v url bytes) pkg false true
      = (.ok (cachePathFor pkg v), missWorld2 pkg v url bytes,
         [Op.fsRead MANIFEST_PATH, Op.fsRead (cachePathFor pkg v)]) :=
    acquireOne_hit (missWorld2 pkg v url bytes) pkg v
      { path := cachePathFor pkg v, integrity := integrityStringOf bytes }
      bytes hname (alookup_aput_self _ _ _) (alookup_aput_self _ _ _)
      (alookup_aput_self _ _ _) rfl
  rw [e1]
  refine ⟨rfl, by simp [Op.isDownload], ?_, ?_⟩
  · rw [show ((Except.ok (cachePathFor pkg v) : Except JsErr String),
      missWorld2 pkg v url bytes,
      [Op.regFetch pkg, Op.fsRead MANIFEST_PATH, Op.regFetch pkg,
       Op.fsMkdir CACHE_DIR, Op.fsAccess (cachePathFor pkg v),
       Op.tarballFetch url, Op.fsWrite (cachePathFor pkg v),
       Op.fsRead (cachePathFor pkg v), Op.fsRead MANIFEST_PATH,
       Op.fsWrite MANIFEST_PATH]).2.1 = missWorld2 pkg v url bytes from rfl,
      e2]
  · rw [show ((Except.ok (cachePathFor pkg v) : Except JsErr String),
      missWorld2 pkg v url bytes,
      [Op.regFetch pkg, Op.fsRead MANIFEST_PATH, Op.regFetch pkg,
       Op.fsMkdir CACHE_DIR, Op.fsAccess (cachePathFor pkg v),
       Op.tarballFetch url, Op.fsWrite (cachePathFor pkg v),
       Op.fsRead (cachePathFor pkg v), Op.fsRead MANIFEST_PATH,
       Op.fsWrite MANIFEST_PATH]).2.1 = missWorld2 pkg v url bytes from rfl,
      e2]
    rfl

/-- C1 witness: the amended sequential fact at a concrete package. -/
theorem c1_witness :
    validPkgName "lodash" = true ∧
    ((acquireOne (missWorld "lodash" "1.0.0" demoUrl demoBytes)
        "lodash" false true).1 = .ok (cachePathFor "lodash" "1.0.0") ∧
     ((acquireOne (missWorld "lodash" "1.0.0" demoUrl demoBytes)
        "lodash" false true).2.2.filter Op.isDownload).length = 1 ∧
     (acquireOne
        ((acquireOne (missWorld "lodash" "1.0.0" demoUrl demoBytes)
          "lodash" false true).2.1)
        "lodash" false true).1 = .ok (cachePathFor "lodash" "1.0.0") ∧
     ((acquireOne
        ((acquireOne (missWorld "lodash" "1.0.0" demoUrl demoBytes)
          "lodash" false true).2.1)
        "lodash" false true).2.2.filter Op.isDownload) = []) :=
  ⟨by decide, c1_theorem "lodash" "1.0.0" demoUrl demoBytes (by decide)⟩

/-- C3 (confirmed): with the registry resolution served by the
process-local memory cache and a manifest entry whose on-disk bytes
re-verify against the recorded integrity, `acquireOne` re-reads the file,
returns the recorded store path, leaves the world unchanged, and its trace
contains zero network operations (only the manifest read and the artifact
read). -/
theorem c3_theorem (w : World) (pkg v : String) (entry : ManifestEntry)
    (content : String)
    (hname : validPkgName pkg = true)
    (hvc : alookup w.versionCache pkg = some v)
    (hm : alookup (loadManifest w.manifestDoc) (keyFor pkg v) = some entry)
    (hf : alookup w.fs entry.path = some content)
    (hd : "sha512-" ++ sha512base64 content = entry.integrity) :
    acquireOne w pkg false true
      = (.ok entry.path, w,
         [Op.fsRead MANIFEST_PATH, Op.fsRead entry.path]) ∧
    ((acquireOne w pkg false true).2.2.filter Op.isNetwork) = [] := by
  have h := acquireOne_hit w pkg v entry content hname hvc hm hf hd
  exact ⟨h, by rw [h]; rfl⟩

/-- C3 witness: concrete cache hit after a completed acquisition. -/
theorem c3_witness :
    validPkgName "lodash" = true ∧
    alookup (missWorld2 "lodash" "1.0.0" demoUrl demoBytes).versionCache
      "lodash" = some "1.0.0" ∧
    alookup (loadManifest
        (missWorld2 "lodash" "1.0.0" demoUrl demoBytes).manifestDoc)
      (keyFor "lodash" "1.0.0")
      = some { path := cachePathFor "lodash" "1.0.0",
               integrity := integrityStringOf demoBytes } ∧
    alookup (missWorld2 "lodash" "1.0.0" demoUrl demoBytes).fs
      (cachePathFor "lodash" "1.0.0") = some demoBytes ∧
    "sha512-" ++ sha512base64 demoBytes = integrityStringOf demoBytes ∧
    (acquireOne (missWorld2 "lodash" "1.0.0" demoUrl demoBytes)
        "lodash" false true
      = (.ok (cachePathFor "lodash" "1.0.0"),
         missWorld2 "lodash" "1.0.0" demoUrl demoBytes,
         [Op.fsRead MANIFEST_PATH,
          Op.fsRead (cachePathFor "lodash" "1.0.0")])) :=
  ⟨by decide, by decide, by decide, by decide, by decide,
   (c3_theorem (missWorld2 "lodash" "1.0.0" demoUrl demoBytes)
      "lodash" "1.0.0"
      { path := cachePathFor "lodash" "1.0.0",
        integrity := integrityStringOf demoBytes }
      demoBytes (by decide) (by decide) (by decide) (by decide)
      (by decide)).1⟩

/-- Registry fetch answered by a document with no `dist-tags` (including
the missing-package error body, since `cachePackage` never checks
`res.ok`): resolving `"latest"` raises the TypeError of reading `latest`
on `undefined`. -/
theorem cachePackage_noLatest (w : World) (pkg : String)
    (data : RegistryDoc)
    (hdata : (alookup w.registry pkg).getD errorDoc = data)
    (hdt : data.distTags = none) :
    cachePackage w pkg "latest"
      = (.error (.undefinedAccess "latest"), w, [Op.regFetch pkg]) := by
  unfold cachePackage
  simp [hdata, hdt]

/-- Response with no `versions` property: reading `versions[pv]` on
`undefined` raises the TypeError naming the looked-up version. -/
theorem cachePackage_noVersions (w : World) (pkg v pv : String)
    (data : RegistryDoc)
    (hdata : (alookup w.registry pkg).getD errorDoc = data)
    (hpv : resolvesTo data v pv)
    (hver : data.versions = none) :
    cachePackage w pkg v
      = (.error (.undefinedAccess pv), w, [Op.regFetch pkg]) := by
  unfold cachePackage
  unfold resolvesTo at hpv
  simp only [hdata, hpv, hver]

/-- Requested version absent from `versions`: reading `.dist` on
`undefined` raises the TypeError naming `dist` (this is how the source
fails for a nonexistent version — not with a not-found error). -/
theorem cachePackage_noVersion (w : World) (pkg v pv : String)
    (data : RegistryDoc) (vs : List (String × VersionInfo))
    (hdata : (alookup w.registry pkg).getD errorDoc = data)
    (hpv : resolvesTo data v pv)
    (hver : data.versions = some vs)
    (hvi : alookup vs pv = none) :
    cachePackage w pkg v
      = (.error (.undefinedAccess "dist"), w, [Op.regFetch pkg]) := by
  unfold cachePackage
  unfold resolvesTo at hpv
  simp only [hdata, hpv, hver, hvi]

/-- Version entry present but without `dist`: reading `.tarball` on
`undefined` raises the TypeError naming `tarball`. -/
theorem cachePackage_noDist (w : World) (pkg v pv : String)
    (data : RegistryDoc) (vs : List (String × VersionInfo))
    (hdata : (alookup w.registry pkg).getD errorDoc = data)
    (hpv : resolvesTo data v pv)
    (hver : data.versions = some vs)
    (hvi : alookup vs pv = some { dist := none }) :
    cachePackage w pkg v
      = (.error (.undefinedAccess "tarball"), w, [Op.regFetch pkg]) := by
  unfold cachePackage
  unfold resolvesTo at hpv
  simp only [hdata, hpv, hver, hvi]

/-- After successful version resolution, `cachePackage` either leaves the
persisted manifest document unchanged, or it succeeds and the new entry
records exactly the digest of the bytes now on disk at the canonical
path. -/
theorem cachePackage_resolved_manifest_cases (w : World)
    (pkg version pv : String) (data : RegistryDoc)
    (hdata : (alookup w.registry pkg).getD errorDoc = data)
    (hpv : resolvesTo data version pv) :
    (cachePackage w pkg version).2.1.manifestDoc = w.manifestDoc ∨
    ∃ c,
      (cachePackage w pkg version).1 = .ok (cachePathFor pkg pv) ∧
      alookup (cachePackage w pkg version).2.1.fs (cachePathFor pkg pv)
        = some c ∧
      alookup (loadManifest (cachePackage w pkg version).2.1.manifestDoc)
          (keyFor pkg pv)
        = some { path := cachePathFor pkg pv,
                 integrity := "sha512-" ++ sha512base64 c } := by
  rcases hver : data.versions with _ | vs
  · left
    rw [cachePackage_noVersions w pkg version pv data hdata hpv hver]
  rcases hvi : alookup vs pv with _ | vi
  · left
    rw [cachePackage_noVersion w pkg version pv data vs hdata hpv hver hvi]
  rcases hdist : vi.dist with _ | d
  · left
    rw [cachePackage_noDist w pkg version pv data vs hdata hpv hver
      (by rw [← hdist]; exact hvi)]
  have hvi' : alookup vs pv = some { dist := some d } := by
    rw [← hdist]; exact hvi
  rcases hfs : alookup w.fs (cachePathFor pkg pv) with _ | c
  · have habs := cachePackage_absent w pkg version pv data vs d
      ((alookup w.tarballs d.tarball).getD "") hdata hpv hver hvi' hfs rfl
    by_cases hd : "sha512-" ++
        sha512base64 ((alookup w.tarballs d.tarball).getD "") = d.integrity
    · right
      refine ⟨(alookup w.tarballs d.tarball).getD "", ?_, ?_, ?_⟩
      · rw [habs, if_pos hd]
      · rw [habs, if_pos hd]
        exact alookup_aput_self _ _ _
      · rw [habs, if_pos hd]
        show alookup (aput (loadManifest w.manifestDoc) (keyFor pkg pv)
          { path := cachePathFor pkg pv, integrity := d.integrity })
          (keyFor pkg pv) = _
        rw [alookup_aput_self, ← hd]
    · left
      rw [habs, if_neg hd]
  · have hpres := cachePackage_present w pkg version pv data vs d c
      hdata hpv hver hvi' hfs
    by_cases hd : "sha512-" ++ sha512base64 c = d.integrity
    · right
      refine ⟨c, ?_, ?_, ?_⟩
      · rw [hpres, if_pos hd]
      · rw [hpres, if_pos hd]
        exact hfs
      · rw [hpres, if_pos hd]
        show alookup (aput (loadManifest w.manifestDoc) (keyFor pkg pv)
          { path := cachePathFor pkg pv, integrity := d.integrity })
          (keyFor pkg pv) = _
        rw [alookup_aput_self, ← hd]
    · left
      rw [hpres, if_neg hd]

/-- Whatever the world and arguments, `cachePackage` either leaves the
persisted manifest document unchanged, or it succeeds and the entry it
registered records exactly the digest of the bytes on disk at the
canonical path: a manifest entry is only ever created after successful
verification of the stored bytes. -/
theorem cachePackage_manifest_unchanged_or_verified (w : World)
    (pkg version : String) :
    (cachePackage w pkg version).2.1.manifestDoc = w.manifestDoc ∨
    ∃ pv c,
      (cachePackage w pkg version).1 = .ok (cachePathFor pkg pv) ∧
      alookup (cachePackage w pkg version).2.1.fs (cachePathFor pkg pv)
        = some c ∧
      alookup (loadManifest (cachePackage w pkg version).2.1.manifestDoc)
          (keyFor pkg pv)
        = some { path := cachePathFor pkg pv,
                 integrity := "sha512-" ++ sha512base64 c } := by
  by_cases hv : version = "latest"
  · subst hv
    rcases hdt : ((alookup w.registry pkg).getD errorDoc).distTags
      with _ | dt
    · left
      rw [cachePackage_noLatest w pkg _ rfl hdt]
    · rcases cachePackage_resolved_manifest_cases w pkg "latest" dt.latest
        _ rfl (by simp [resolvesTo, hdt]) with h | ⟨c, hc⟩
      · exact Or.inl h
      · exact Or.inr ⟨dt.latest, c, hc⟩
  · rcases cachePackage_resolved_manifest_cases w pkg version version
      _ rfl (resolvesTo_literal _ _ hv) with h | ⟨c, hc⟩
    · exact Or.inl h
    · exact Or.inr ⟨version, c, hc⟩

/-- C2 (confirmed): whenever the digest of the bytes that end up at the
canonical path (pre-existing file, or the freshly downloaded tarball) does
not match the registry-reported integrity, `cachePackage` fails with the
integrity error, the file at the canonical path is deleted, and the
persisted manifest document is left unchanged (so no entry for the key is
created). Moreover, in full generality, the manifest document is only ever
modified by `cachePackage` when verification succeeded: any run either
leaves the document unchanged or succeeds with an entry recording exactly
the digest of the bytes on disk. -/
theorem c2_theorem :
    (∀ (w : World) (pkg v pv : String) (doc : RegistryDoc)
       (vs : List (String × VersionInfo)) (d : DistInfo) (c : String),
      alookup w.registry pkg = some doc → resolvesTo doc v pv →
      doc.versions = some vs → alookup vs pv = some { dist := some d } →
      alookup w.fs (cachePathFor pkg pv) = some c →
      ¬ "sha512-" ++ sha512base64 c = d.integrity →
      (cachePackage w pkg v).1 = .error (.integrityFailed pkg pv) ∧
      alookup (cachePackage w pkg v).2.1.fs (cachePathFor pkg pv) = none ∧
      (cachePackage w pkg v).2.1.manifestDoc = w.manifestDoc) ∧
    (∀ (w : World) (pkg v pv : String) (doc : RegistryDoc)
       (vs : List (String × VersionInfo)) (d : DistInfo) (bytes : String),
      alookup w.registry pkg = some doc → resolvesTo doc v pv →
      doc.versions = some vs → alookup vs pv = some { dist := some d } →
      alookup w.fs (cachePathFor pkg pv) = none →
      (alookup w.tarballs d.tarball).getD "" = bytes →
      ¬ "sha512-" ++ sha512base64 bytes = d.integrity →
      (cachePackage w pkg v).1 = .error (.integrityFailed pkg pv) ∧
      alookup (cachePackage w pkg v).2.1.fs (cachePathFor pkg pv) = none ∧
      (cachePackage w pkg v).2.1.manifestDoc = w.manifestDoc) ∧
    (∀ (w : World) (pkg version : String),
      (cachePackage w pkg version).2.1.manifestDoc = w.manifestDoc ∨
      ∃ pv c,
        (cachePackage w pkg version).1 = .ok (cachePathFor pkg pv) ∧
        alookup (cachePackage w pkg version).2.1.fs (cachePathFor pkg pv)
          = some c ∧
        alookup
            (loadManifest (cachePackage w pkg version).2.1.manifestDoc)
            (keyFor pkg pv)
          = some { path := cachePathFor pkg pv,
                   integrity := "sha512-" ++ sha512base64 c }) := by
  refine ⟨?_, ?_, ?_⟩
  · intro w pkg v pv doc vs d c hreg hpv hver hvi hfs hd
    have h := cachePackage_present w pkg v pv doc vs d c
      (by rw [hreg]; rfl) hpv hver hvi hfs
    rw [h, if_neg hd]
    exact ⟨rfl, alookup_aremove_self _ _, rfl⟩
  · intro w pkg v pv doc vs d bytes hreg hpv hver hvi hfs htar hd
    have h := cachePackage_absent w pkg v pv doc vs d bytes
      (by rw [hreg]; rfl) hpv hver hvi hfs htar
    rw [h, if_neg hd]
    exact ⟨rfl, alookup_aremove_self _ _, rfl⟩
  · exact fun w pkg version =>
      cachePackage_manifest_unchanged_or_verified w pkg version

/-- C2 witness: a tampered pre-existing file and an integrity-violating
download are both evicted and rejected without touching the manifest, at
concrete inputs. -/
theorem c2_witness :
    (¬ "sha512-" ++ sha512base64 "TAMPERED"
      = (missDist demoUrl demoBytes).integrity) ∧
    ((cachePackage tamperedWorld "lodash" "1.0.0").1
       = .error (.integrityFailed "lodash" "1.0.0") ∧
     alookup (cachePackage tamperedWorld "lodash" "1.0.0").2.1.fs
       (cachePathFor "lodash" "1.0.0") = none ∧
     (cachePackage tamperedWorld "lodash" "1.0.0").2.1.manifestDoc
       = tamperedWorld.manifestDoc) ∧
    (¬ "sha512-" ++ sha512base64 "EVIL-BYTES"
      = (missDist demoUrl demoBytes).integrity) ∧
    ((cachePackage evilWorld "lodash" "1.0.0").1
       = .error (.integrityFailed "lodash" "1.0.0") ∧
     alookup (cachePackage evilWorld "lodash" "1.0.0").2.1.fs
       (cachePathFor "lodash" "1.0.0") = none ∧
     (cachePackage evilWorld "lodash" "1.0.0").2.1.manifestDoc
       = evilWorld.manifestDoc) ∧
    ((cachePackage freshWorld "lodash" "1.0.0").2.1.manifestDoc
        = freshWorld.manifestDoc ∨
     ∃ pv c,
       (cachePackage freshWorld "lodash" "1.0.0").1
         = .ok (cachePathFor "lodash" pv) ∧
       alookup (cachePackage freshWorld "lodash" "1.0.0").2.1.fs
         (cachePathFor "lodash" pv) = some c ∧
       alookup
           (loadManifest
             (cachePackage freshWorld "lodash" "1.0.0").2.1.manifestDoc)
           (keyFor "lodash" pv)
         = some { path := cachePathFor "lodash" pv,
                  integrity := "sha512-" ++ sha512base64 c }) :=
  ⟨by decide,
   c2_theorem.1 tamperedWorld "lodash" "1.0.0" "1.0.0" demoDoc
     [("1.0.0", { dist := some (missDist demoUrl demoBytes) })]
     (missDist demoUrl demoBytes) "TAMPERED"
     (by decide) (resolvesTo_literal demoDoc "1.0.0" (by decide))
     (by decide) (by decide) (by decide) (by decide),
   by decide,
   c2_theorem.2.1 evilWorld "lodash" "1.0.0" "1.0.0" demoDoc
     [("1.0.0", { dist := some (missDist demoUrl demoBytes) })]
     (missDist demoUrl demoBytes) "EVIL-BYTES"
     (by decide) (resolvesTo_literal demoDoc "1.0.0" (by decide))
     (by decide) (by decide) (by decide) (by decide) (by decide),
   c2_theorem.2.2 freshWorld "lodash" "1.0.0"⟩

/-- C4 (confirmed): on a cache hit whose on-disk file fails digest
re-verification, the acquisition pipeline deletes the corrupted file,
removes the stale entry from the persisted manifest document, performs a
fresh fetch (exactly one download), and on success rewrites the ledger
entry with the digest of the freshly stored bytes. -/
theorem c4_theorem (w : World) (pkg v integ0 badContent : String)
    (doc : RegistryDoc) (vs : List (String × VersionInfo)) (d : DistInfo)
    (bytes : String)
    (hname : validPkgName pkg = true)
    (hvc : alookup w.versionCache pkg = some v)
    (hm : alookup (loadManifest w.manifestDoc) (keyFor pkg v)
      = some { path := cachePathFor pkg v, integrity := integ0 })
    (hbad : alookup w.fs (cachePathFor pkg v) = some badContent)
    (hmis : ¬ "sha512-" ++ sha512base64 badContent = integ0)
    (hreg : alookup w.registry pkg = some doc)
    (hdt : doc.distTags = some { latest := v })
    (hver : doc.versions = some vs)
    (hvi : alookup vs v = some { dist := some d })
    (htar : (alookup w.tarballs d.tarball).getD "" = bytes)
    (hgood : "sha512-" ++ sha512base64 bytes = d.integrity) :
    alookup (loadManifest (getCachedPackage w pkg v).2.1.manifestDoc)
      (keyFor pkg v) = none ∧
    alookup (getCachedPackage w pkg v).2.1.fs (cachePathFor pkg v)
      = none ∧
    (acquireOne w pkg false true).1 = .ok (cachePathFor pkg v) ∧
    ((acquireOne w pkg false true).2.2.filter Op.isDownload).length = 1 ∧
    Op.fsUnlink (cachePathFor pkg v) ∈ (acquireOne w pkg false true).2.2 ∧
    alookup (loadManifest (acquireOne w pkg false true).2.1.manifestDoc)
        (keyFor pkg v)
      = some { path := cachePathFor pkg v,
               integrity := "sha512-" ++ sha512base64 bytes } ∧
    alookup (acquireOne w pkg false true).2.1.fs (cachePathFor pkg v)
      = some bytes := by
  have hgc : getCachedPackage w pkg v
      = (.ok none,
         { w with fs := aremove w.fs (cachePathFor pkg v),
                  manifestDoc := saveManifest
                    (aremove (loadManifest w.manifestDoc) (keyFor pkg v)) },
         [Op.fsRead MANIFEST_PATH, Op.fsRead (cachePathFor pkg v),
          Op.fsUnlink (cachePathFor pkg v), Op.fsWrite MANIFEST_PATH]) :=
    getCachedPackage_corrupt w pkg v _ badContent hm hbad hmis
  have hcp : cachePackage
      ({ w with fs := aremove w.fs (cachePathFor pkg v),
                manifestDoc := saveManifest
                  (aremove (loadManifest w.manifestDoc) (keyFor pkg v)) })
      pkg v
      = (.ok (cachePathFor pkg v),
         { w with fs := aput (aremove w.fs (cachePathFor pkg v))
                    (cachePathFor pkg v) bytes,
                  manifestDoc := saveManifest
                    (aput (aremove (loadManifest w.manifestDoc)
                        (keyFor pkg v)) (keyFor pkg v)
                      { path := cachePathFor pkg v,
                        integrity := d.integrity }) },
         [Op.regFetch pkg, Op.fsMkdir CACHE_DIR,
          Op.fsAccess (cachePathFor pkg v), Op.tarballFetch d.tarball,
          Op.fsWrite (cachePathFor pkg v), Op.fsRead (cachePathFor pkg v),
          Op.fsRead MANIFEST_PATH, Op.fsWrite MANIFEST_PATH]) := by
    rw [cachePackage_absent
      ({ w with fs := aremove w.fs (cachePathFor pkg v),
                manifestDoc := saveManifest
                  (aremove (loadManifest w.manifestDoc) (keyFor pkg v)) })
      pkg v v doc vs d bytes
      (by show (alookup w.registry pkg).getD errorDoc = doc
          rw [hreg]; rfl)
      (resolvesTo_self doc v hdt) hver hvi (alookup_aremove_self _ _)
      (by show (alookup w.tarballs d.tarball).getD "" = bytes
          exact htar)]
    rw [if_pos hgood]
    rfl
  have hao : acquireOne w pkg false true
      = (.ok (cachePathFor pkg v),
         { w with fs := aput (aremove w.fs (cachePathFor pkg v))
                    (cachePathFor pkg v) bytes,
                  manifestDoc := saveManifest
                    (aput (aremove (loadManifest w.manifestDoc)
                        (keyFor pkg v)) (keyFor pkg v)
                      { path := cachePathFor pkg v,
                        integrity := d.integrity }) },
         [Op.fsRead MANIFEST_PATH, Op.fsRead (cachePathFor pkg v),
          Op.fsUnlink (cachePathFor pkg v), Op.fsWrite MANIFEST_PATH,
          Op.regFetch pkg, Op.fsMkdir CACHE_DIR,
          Op.fsAccess (cachePathFor pkg v), Op.tarballFetch d.tarball,
          Op.fsWrite (cachePathFor pkg v), Op.fsRead (cachePathFor pkg v),
          Op.fsRead MANIFEST_PATH, Op.fsWrite MANIFEST_PATH]) := by
    simp [acquireOne, sanitize_ok pkg hname,
      getPackageVersion_cached w pkg v hvc, hgc, hcp]
  refine ⟨?_, ?_, ?_, ?_, ?_, ?_, ?_⟩
  · rw [hgc]
    exact alookup_aremove_self _ _
  · rw [hgc]
    exact alookup_aremove_self _ _
  · rw [hao]
  · rw [hao]
    simp [Op.isDownload]
  · rw [hao]
    simp
  · rw [hao]
    show alookup (aput (aremove (loadManifest w.manifestDoc)
        (keyFor pkg v)) (keyFor pkg v)
      { path := cachePathFor pkg v, integrity := d.integrity })
      (keyFor pkg v) = _
    rw [alookup_aput_self, ← hgood]
  · rw [hao]
    exact alookup_aput_self _ _ _

/-- C4 witness: the self-heal pipeline at a concrete corrupted world. -/
theorem c4_witness :
    validPkgName "lodash" = true ∧
    alookup corruptWorld.versionCache "lodash" = some "1.0.0" ∧
    alookup (loadManifest corruptWorld.manifestDoc)
        (keyFor "lodash" "1.0.0")
      = some { path := cachePathFor "lodash" "1.0.0",
               integrity := integrityStringOf demoBytes } ∧
    alookup corruptWorld.fs (cachePathFor "lodash" "1.0.0")
      = some "CORRUPTED" ∧
    (¬ "sha512-" ++ sha512base64 "CORRUPTED"
      = integrityStringOf demoBytes) ∧
    (alookup (loadManifest
        (getCachedPackage corruptWorld "lodash" "1.0.0").2.1.manifestDoc)
      (keyFor "lodash" "1.0.0") = none ∧
     alookup (getCachedPackage corruptWorld "lodash" "1.0.0").2.1.fs
       (cachePathFor "lodash" "1.0.0") = none ∧
     (acquireOne corruptWorld "lodash" false true).1
       = .ok (cachePathFor "lodash" "1.0.0") ∧
     ((acquireOne corruptWorld "lodash" false true).2.2.filter
        Op.isDownload).length = 1 ∧
     Op.fsUnlink (cachePathFor "lodash" "1.0.0")
       ∈ (acquireOne corruptWorld "lodash" false true).2.2 ∧
     alookup (loadManifest
          (acquireOne corruptWorld "lodash" false true).2.1.manifestDoc)
         (keyFor "lodash" "1.0.0")
       = some { path := cachePathFor "lodash" "1.0.0",
                integrity := "sha512-" ++ sha512base64 demoBytes } ∧
     alookup (acquireOne corruptWorld "lodash" false true).2.1.fs
       (cachePathFor "lodash" "1.0.0") = some demoBytes) :=
  ⟨by decide, by decide, by decide, by decide, by decide,
   c4_theorem corruptWorld "lodash" "1.0.0" (integrityStringOf demoBytes)
     "CORRUPTED" demoDoc
     [("1.0.0", { dist := some (missDist demoUrl demoBytes) })]
     (missDist demoUrl demoBytes) demoBytes
     (by decide) (by decide) (by decide) (by decide) (by decide)
     (by decide) (by decide) (by decide) (by decide) (by decide)
     (by decide)⟩

/-- Behaviour of `getCachedPackage` when the recorded file is gone from disk:
`fsPromises.readFile` rejects with ENOENT and the error propagates. -/
theorem getCachedPackage_enoent (w : World) (pkg v : String)
    (entry : ManifestEntry)
    (hm : alookup (loadManifest w.manifestDoc) (keyFor pkg v) = some entry)
    (hf : alookup w.fs entry.path = none) :
    getCachedPackage w pkg v =
      (.error (.enoent entry.path), w,
       [Op.fsRead MANIFEST_PATH, Op.fsRead entry.path]) := by
  simp [getCachedPackage, hm, hf]

/-- C5 (counterexample): on a fresh successful `cachePackage` run the
trace writes directly to the canonical artifact path and directly to the
manifest path, and contains no rename at all — the write-then-rename
discipline claimed by the spec is violated. -/
theorem c5_counterexample :
    atomicWriteDiscipline (cachePathFor "lodash" "1.0.0")
      ((cachePackage freshWorld "lodash" "1.0.0").2.2) = false ∧
    Op.fsWrite (cachePathFor "lodash" "1.0.0")
      ∈ (cachePackage freshWorld "lodash" "1.0.0").2.2 ∧
    Op.fsWrite MANIFEST_PATH
      ∈ (cachePackage freshWorld "lodash" "1.0.0").2.2 ∧
    (cachePackage freshWorld "lodash" "1.0.0").2.2.filter Op.isRename
      = [] := by
  decide

/-- Trace shape of `cachePackage` after successful version resolution:
no renames, and every write goes directly to the canonical artifact path
or to the manifest path. -/
theorem cachePackage_resolved_trace (w : World) (pkg version pv : String)
    (data : RegistryDoc)
    (hdata : (alookup w.registry pkg).getD errorDoc = data)
    (hpv : resolvesTo data version pv) :
    ((cachePackage w pkg version).2.2.filter Op.isRename = []) ∧
    (∀ p, Op.fsWrite p ∈ (cachePackage w pkg version).2.2 →
      p = cachePathFor pkg pv ∨ p = MANIFEST_PATH) := by
  rcases hver : data.versions with _ | vs
  · rw [cachePackage_noVersions w pkg version pv data hdata hpv hver]
    exact ⟨rfl, by intro p hp; simp at hp⟩
  rcases hvi : alookup vs pv with _ | vi
  · rw [cachePackage_noVersion w pkg version pv data vs hdata hpv hver hvi]
    exact ⟨rfl, by intro p hp; simp at hp⟩
  rcases hdist : vi.dist with _ | d
  · rw [cachePackage_noDist w pkg version pv data vs hdata hpv hver
      (by rw [← hdist]; exact hvi)]
    exact ⟨rfl, by intro p hp; simp at hp⟩
  have hvi' : alookup vs pv = some { dist := some d } := by
    rw [← hdist]; exact hvi
  rcases hfs : alookup w.fs (cachePathFor pkg pv) with _ | c
  · rw [cachePackage_absent w pkg version pv data vs d
      ((alookup w.tarballs d.tarball).getD "") hdata hpv hver hvi' hfs rfl]
    by_cases hd : "sha512-" ++
        sha512base64 ((alookup w.tarballs d.tarball).getD "") = d.integrity
    · rw [if_pos hd]
      refine ⟨rfl, ?_⟩
      intro p hp
      simpa using hp
    · rw [if_neg hd]
      refine ⟨rfl, ?_⟩
      intro p hp
      simp at hp
      exact Or.inl hp
  · rw [cachePackage_present w pkg version pv data vs d c
      hdata hpv hver hvi' hfs]
    by_cases hd : "sha512-" ++ sha512base64 c = d.integrity
    · rw [if_pos hd]
      refine ⟨rfl, ?_⟩
      intro p hp
      simp at hp
      exact Or.inr hp
    · rw [if_neg hd]
      refine ⟨rfl, ?_⟩
      intro p hp
      simp at hp

/-- C5 (amended): neither `cachePackage` nor `getCachedPackage` ever
performs a rename, and their writes go directly to the final paths: a
`cachePackage` write targets the canonical artifact path (the streaming
tarball write) or the manifest document path, and a `getCachedPackage`
write targets only the manifest document path. No temporary path is
involved, so a crash mid-write can leave partial content at the canonical
path itself. -/
theorem c5_theorem :
    (∀ (w : World) (pkg version : String),
      ((cachePackage w pkg version).2.2.filter Op.isRename = []) ∧
      (∀ p, Op.fsWrite p ∈ (cachePackage w pkg version).2.2 →
        (∃ pv, p = cachePathFor pkg pv) ∨ p = MANIFEST_PATH)) ∧
    (∀ (w : World) (pkg v : String),
      ((getCachedPackage w pkg v).2.2.filter Op.isRename = []) ∧
      (∀ p, Op.fsWrite p ∈ (getCachedPackage w pkg v).2.2 →
        p = MANIFEST_PATH)) := by
  constructor
  · intro w pkg version
    by_cases hv : version = "latest"
    · subst hv
      rcases hdt : ((alookup w.registry pkg).getD errorDoc).distTags
        with _ | dt
      · rw [cachePackage_noLatest w pkg _ rfl hdt]
        exact ⟨rfl, by intro p hp; simp at hp⟩
      · have h := cachePackage_resolved_trace w pkg "latest" dt.latest
          _ rfl (by simp [resolvesTo, hdt])
        exact ⟨h.1, fun p hp => (h.2 p hp).imp (fun he => ⟨dt.latest, he⟩)
          id⟩
    · have h := cachePackage_resolved_trace w pkg version version
        _ rfl (resolvesTo_literal _ _ hv)
      exact ⟨h.1, fun p hp => (h.2 p hp).imp (fun he => ⟨version, he⟩) id⟩
  · intro w pkg v
    rcases hm : alookup (loadManifest w.manifestDoc) (keyFor pkg v)
      with _ | entry
    · rw [getCachedPackage_noEntry w pkg v hm]
      exact ⟨rfl, by intro p hp; simp at hp⟩
    · rcases hf : alookup w.fs entry.path with _ | c
      · rw [getCachedPackage_enoent w pkg v entry hm hf]
        exact ⟨rfl, by intro p hp; simp at hp⟩
      · by_cases hd : "sha512-" ++ sha512base64 c = entry.integrity
        · rw [getCachedPackage_hit w pkg v entry c hm hf hd]
          exact ⟨rfl, by intro p hp; simp at hp⟩
        · rw [getCachedPackage_corrupt w pkg v entry c hm hf hd]
          refine ⟨rfl, ?_⟩
          intro p hp
          simpa using hp

/-- C5 witness: the amended no-rename and direct-write facts at a
concrete run. -/
theorem c5_witness :
    ((cachePackage freshWorld "lodash" "1.0.0").2.2.filter Op.isRename
      = []) ∧
    (Op.fsWrite MANIFEST_PATH
      ∈ (cachePackage freshWorld "lodash" "1.0.0").2.2) ∧
    ((∃ pv, MANIFEST_PATH = cachePathFor "lodash" pv)
      ∨ MANIFEST_PATH = MANIFEST_PATH) ∧
    ((getCachedPackage freshWorld "lodash" "1.0.0").2.2.filter Op.isRename
      = []) :=
  ⟨(c5_theorem.1 freshWorld "lodash" "1.0.0").1, by decide,
   (c5_theorem.1 freshWorld "lodash" "1.0.0").2 MANIFEST_PATH (by decide),
   (c5_theorem.2 freshWorld "lodash" "1.0.0").1⟩

/-- C6 (confirmed): a package name containing any character outside
alphanumerics, `-`, `_`, `@`, `/` fails the sanitize step, so the whole
per-package pipeline returns the invalid-package error with the world
unchanged and an EMPTY operation trace: no network or filesystem
operation has happened. -/
theorem c6_theorem (w : World) (pkg : String) (c : Char)
    (force globalFlag : Bool)
    (hc : c ∈ pkg.data) (hbad : validPkgChar c = false) :
    acquireOne w pkg force globalFlag
      = (.error (.invalidPackage pkg), w, []) := by
  have hall : pkg.data.all validPkgChar = false := by
    cases hx : pkg.data.all validPkgChar
    · rfl
    · have := List.all_eq_true.mp hx c hc
      rw [hbad] at this
      exact Bool.noConfusion this
  have hvalid : validPkgName pkg = false := by
    unfold validPkgName
    rw [hall, Bool.and_false]
  simp [acquireOne, sanitizeInput, hvalid]

/-- C6 witness: the spec example `"../evil"` is rejected with no
operations at all. -/
theorem c6_witness :
    ('.' ∈ "../evil".data) ∧ (validPkgChar '.' = false) ∧
    acquireOne freshWorld "../evil" false false
      = (.error (.invalidPackage "../evil"), freshWorld, []) :=
  ⟨by decide, by decide,
   c6_theorem freshWorld "../evil" '.' false false (by decide) (by decide)⟩

/-- C7 (confirmed): loading the manifest ledger never fails: an absent or
unparsable persisted document loads as the empty mapping (`loadManifest`
is total, so nothing is thrown), `getCachedPackage` over such a document
reports a clean miss, and a put of an entry followed by save and reload
recovers the entry exactly. -/
theorem c7_theorem :
    (loadManifest .absent = []) ∧
    (loadManifest .unparsable = []) ∧
    (∀ (w : World) (pkg v : String), w.manifestDoc = .absent →
      getCachedPackage w pkg v
        = (.ok none, w, [Op.fsRead MANIFEST_PATH])) ∧
    (∀ (w : World) (pkg v : String), w.manifestDoc = .unparsable →
      getCachedPackage w pkg v
        = (.ok none, w, [Op.fsRead MANIFEST_PATH])) ∧
    (∀ (m : Manifest) (k : String) (e : ManifestEntry),
      alookup (loadManifest (saveManifest (aput m k e))) k = some e) := by
  refine ⟨rfl, rfl, ?_, ?_, ?_⟩
  · intro w pkg v h
    exact getCachedPackage_noEntry w pkg v (by rw [h]; rfl)
  · intro w pkg v h
    exact getCachedPackage_noEntry w pkg v (by rw [h]; rfl)
  · intro m k e
    exact alookup_aput_self m k e

/-- C7 witness: resilience and the save/reload round-trip at concrete
values. -/
theorem c7_witness :
    garbledWorld.manifestDoc = .unparsable ∧
    getCachedPackage garbledWorld "lodash" "1.0.0"
      = (.ok none, garbledWorld, [Op.fsRead MANIFEST_PATH]) ∧
    alookup (loadManifest (saveManifest
        (aput [] (keyFor "lodash" "1.0.0")
          { path := cachePathFor "lodash" "1.0.0",
            integrity := integrityStringOf demoBytes })))
      (keyFor "lodash" "1.0.0")
      = some { path := cachePathFor "lodash" "1.0.0",
               integrity := integrityStringOf demoBytes } :=
  ⟨rfl,
   c7_theorem.2.2.2.1 garbledWorld "lodash" "1.0.0" rfl,
   c7_theorem.2.2.2.2 [] (keyFor "lodash" "1.0.0")
     { path := cachePathFor "lodash" "1.0.0",
       integrity := integrityStringOf demoBytes }⟩

/-- C8 (counterexample): requesting a version that does not exist in the
registry response does NOT fail with the not-found error the claim
requires; it fails with the TypeError of reading `dist` on `undefined`
(the same undefined-property failure as a malformed response). Here the
registry has lodash 1.0.0 only, and 9.9.9 is requested. -/
theorem c8_counterexample :
    (cachePackage freshWorld "lodash" "9.9.9").1
      = .error (.undefinedAccess "dist") ∧
    ¬ (cachePackage freshWorld "lodash" "9.9.9").1
      = .error (.notFound "lodash") ∧
    ¬ (cachePackage freshWorld "lodash" "9.9.9").1
      = .error (.notFound "9.9.9") := by
  decide

/-- C8 (amended): the error kinds the code actually distinguishes.
Version resolution (`getPackageVersion`) fails with the not-found error
for a missing package (it checks `res.ok`); `cachePackage` never checks
`res.ok`, and fails with undefined-property TypeErrors: reading `latest`
when `dist-tags` is missing, reading `dist` when the requested version is
absent (so a nonexistent version is indistinguishable in kind from a
malformed response, not a not-found), and reading `tarball` when the
version entry has no `dist`. `"latest"` resolves to the registry-reported
latest tag — `cachePackage pkg "latest"` behaves exactly like
`cachePackage pkg dt.latest` — and any other version string is looked up
literally; a literally resolved existing version with a verifying
pre-existing file succeeds at its canonical path. -/
theorem c8_theorem :
    (∀ (w : World) (pkg : String),
      alookup w.registry pkg = none →
      (getPackageVersion w pkg true).1 = .error (.notFound pkg)) ∧
    (∀ (w : World) (pkg : String),
      alookup w.versionCache pkg = none →
      alookup w.registry pkg = none →
      (getPackageVersion w pkg false).1 = .error (.notFound pkg)) ∧
    (∀ (w : World) (pkg : String) (data : RegistryDoc),
      (alookup w.registry pkg).getD errorDoc = data →
      data.distTags = none →
      (cachePackage w pkg "latest").1
        = .error (.undefinedAccess "latest")) ∧
    (∀ (w : World) (pkg v : String) (data : RegistryDoc)
       (vs : List (String × VersionInfo)),
      (alookup w.registry pkg).getD errorDoc = data →
      ¬ v = "latest" → data.versions = some vs → alookup vs v = none →
      (cachePackage w pkg v).1 = .error (.undefinedAccess "dist")) ∧
    (∀ (w : World) (pkg v : String) (data : RegistryDoc)
       (vs : List (String × VersionInfo)),
      (alookup w.registry pkg).getD errorDoc = data →
      ¬ v = "latest" → data.versions = some vs →
      alookup vs v = some { dist := none } →
      (cachePackage w pkg v).1 = .error (.undefinedAccess "tarball")) ∧
    (∀ (w : World) (pkg : String) (data : RegistryDoc) (dt : DistTags),
      (alookup w.registry pkg).getD errorDoc = data →
      data.distTags = some dt →
      cachePackage w pkg "latest" = cachePackage w pkg dt.latest) ∧
    (∀ (w : World) (pkg v : String) (data : RegistryDoc)
       (vs : List (String × VersionInfo)) (d : DistInfo) (c : String),
      (alookup w.registry pkg).getD errorDoc = data →
      ¬ v = "latest" → data.versions = some vs →
      alookup vs v = some { dist := some d } →
      alookup w.fs (cachePathFor pkg v) = some c →
      "sha512-" ++ sha512base64 c = d.integrity →
      (cachePackage w pkg v).1 = .ok (cachePathFor pkg v)) := by
  refine ⟨?_, ?_, ?_, ?_, ?_, ?_, ?_⟩
  · intro w pkg hreg
    simp [getPackageVersion, hreg]
  · intro w pkg hvc hreg
    simp [getPackageVersion, hvc, hreg]
  · intro w pkg data hdata hdt
    rw [cachePackage_noLatest w pkg data hdata hdt]
  · intro w pkg v data vs hdata hv hver hvi
    rw [cachePackage_noVersion w pkg v v data vs hdata
      (resolvesTo_literal data v hv) hver hvi]
  · intro w pkg v data vs hdata hv hver hvi
    rw [cachePackage_noDist w pkg v v data vs hdata
      (resolvesTo_literal data v hv) hver hvi]
  · intro w pkg data dt hdata hdt
    unfold cachePackage
    simp only [hdata, hdt]
    by_cases h : dt.latest = "latest"
    · simp [h, hdt]
    · simp [h, hdt]
  · intro w pkg v data vs d c hdata hv hver hvi hfs hd
    rw [cachePackage_present w pkg v v data vs d c hdata
      (resolvesTo_literal data v hv) hver hvi hfs]
    rw [if_pos hd]

/-- C8 witness: each distinguished failure kind and both resolution modes
at concrete inputs. -/
theorem c8_witness :
    (alookup (missWorld "lodash" "1.0.0" demoUrl demoBytes).registry
      "left-pad" = none ∧
     (getPackageVersion freshWorld "left-pad" true).1
       = .error (.notFound "left-pad") ∧
     (getPackageVersion freshWorld "left-pad" false).1
       = .error (.notFound "left-pad")) ∧
    ((cachePackage { freshWorld with registry := [] } "lodash" "latest").1
       = .error (.undefinedAccess "latest")) ∧
    ((cachePackage freshWorld "lodash" "9.9.9").1
       = .error (.undefinedAccess "dist")) ∧
    ((cachePackage { freshWorld with registry := [("weird", noDistDoc)] }
        "weird" "2.0.0").1 = .error (.undefinedAccess "tarball")) ∧
    (cachePackage freshWorld "lodash" "latest"
      = cachePackage freshWorld "lodash" "1.0.0") ∧
    ((cachePackage { freshWorld with
        fs := [(cachePathFor "lodash" "1.0.0", demoBytes)] }
        "lodash" "1.0.0").1 = .ok (cachePathFor "lodash" "1.0.0")) :=
  ⟨⟨by decide,
    c8_theorem.1 freshWorld "left-pad" (by decide),
    c8_theorem.2.1 freshWorld "left-pad" (by decide) (by decide)⟩,
   c8_theorem.2.2.1 { freshWorld with registry := [] } "lodash" errorDoc
     (by decide) (by decide),
   c8_theorem.2.2.2.1 freshWorld "lodash" "9.9.9" demoDoc
     [("1.0.0", { dist := some (missDist demoUrl demoBytes) })]
     (by decide) (by decide) (by decide) (by decide),
   c8_theorem.2.2.2.2.1 { freshWorld with registry := [("weird", noDistDoc)] }
     "weird" "2.0.0" noDistDoc [("2.0.0", { dist := none })]
     (by decide) (by decide) (by decide) (by decide),
   by have h := c8_theorem.2.2.2.2.2.1 freshWorld "lodash" demoDoc
        { latest := "1.0.0" } (by decide) (by decide)
      exact h,
   c8_theorem.2.2.2.2.2.2 { freshWorld with
       fs := [(cachePathFor "lodash" "1.0.0", demoBytes)] }
     "lodash" "1.0.0" demoDoc
     [("1.0.0", { dist := some (missDist demoUrl demoBytes) })]
     (missDist demoUrl demoBytes) demoBytes
     (by decide) (by decide) (by decide) (by decide) (by decide)
     (by decide)⟩

/-- C9 (counterexample): the eviction primitive the source uses is
`fsPromises.unlink`, which rejects with ENOENT on an absent path — so
evicting an absent file IS an error, and eviction is not idempotent:
after a successful eviction, evicting the same path again fails. -/
theorem c9_counterexample :
    (unlinkFs ([] : Fs) "/absent.tgz").1
      = .error (.enoent "/absent.tgz") ∧
    (unlinkFs [("/a.tgz", "X")] "/a.tgz").1 = .ok [] ∧
    (unlinkFs (aremove [("/a.tgz", "X")] "/a.tgz") "/a.tgz").1
      = .error (.enoent "/a.tgz") := by
  decide

/-- C9 (amended): eviction via `fsPromises.unlink` succeeds exactly when
the path is present (removing it), and rejects with ENOENT when it is
absent; in particular a second eviction of the same path always fails, so
eviction is not idempotent. In the code paths of `cachePackage` and
`getCachedPackage` the unlink is only ever reached right after a
successful read of the same path, so there it always succeeds. -/
theorem c9_theorem (fs : Fs) (p : String) :
    ((alookup fs p).isSome = true →
      (unlinkFs fs p).1 = .ok (aremove fs p) ∧
      (unlinkFs (aremove fs p) p).1 = .error (.enoent p)) ∧
    (alookup fs p = none →
      (unlinkFs fs p).1 = .error (.enoent p)) := by
  constructor
  · intro h
    rcases hx : alookup fs p with _ | c
    · rw [hx] at h
      exact absurd h (by simp)
    · constructor
      · simp [unlinkFs, hx]
      · simp [unlinkFs, alookup_aremove_self]
  · intro h
    simp [unlinkFs, h]

/-- C9 witness: the amended unlink semantics at a concrete filesystem. -/
theorem c9_witness :
    ((alookup [("/a.tgz", "X")] "/a.tgz").isSome = true) ∧
    ((unlinkFs [("/a.tgz", "X")] "/a.tgz").1
        = .ok (aremove [("/a.tgz", "X")] "/a.tgz") ∧
     (unlinkFs (aremove [("/a.tgz", "X")] "/a.tgz") "/a.tgz").1
        = .error (.enoent "/a.tgz")) ∧
    (alookup ([] : Fs) "/b.tgz" = none) ∧
    ((unlinkFs ([] : Fs) "/b.tgz").1 = .error (.enoent "/b.tgz")) :=
  ⟨by decide,
   (c9_theorem [("/a.tgz", "X")] "/a.tgz").1 (by decide),
   by decide,
   (c9_theorem ([] : Fs) "/b.tgz").2 (by decide)⟩

/-- C10 (confirmed): when a file already exists at the canonical cache
path, `cachePackage` skips the download (its trace has no tarball fetch)
but still recomputes the digest of the bytes actually on disk and
compares it to the registry-reported integrity before registering: when
the digest matches, the manifest entry recording exactly that digest is
written; when it does not (a tampered pre-existing file), the file is
deleted and the call fails with the integrity error, with the persisted
manifest document untouched. -/
theorem c10_theorem (w : World) (pkg v pv : String) (doc : RegistryDoc)
    (vs : List (String × VersionInfo)) (d : DistInfo) (c : String)
    (hreg : alookup w.registry pkg = some doc)
    (hpv : resolvesTo doc v pv)
    (hver : doc.versions = some vs)
    (hvi : alookup vs pv = some { dist := some d })
    (hfs : alookup w.fs (cachePathFor pkg pv) = some c) :
    ((cachePackage w pkg v).2.2.filter Op.isDownload = []) ∧
    ("sha512-" ++ sha512base64 c = d.integrity →
      (cachePackage w pkg v).1 = .ok (cachePathFor pkg pv) ∧
      alookup (loadManifest (cachePackage w pkg v).2.1.manifestDoc)
          (keyFor pkg pv)
        = some { path := cachePathFor pkg pv,
                 integrity := "sha512-" ++ sha512base64 c } ∧
      alookup (cachePackage w pkg v).2.1.fs (cachePathFor pkg pv)
        = some c) ∧
    (¬ "sha512-" ++ sha512base64 c = d.integrity →
      (cachePackage w pkg v).1 = .error (.integrityFailed pkg pv) ∧
      alookup (cachePackage w pkg v).2.1.fs (cachePathFor pkg pv)
        = none ∧
      (cachePackage w pkg v).2.1.manifestDoc = w.manifestDoc) := by
  have h := cachePackage_present w pkg v pv doc vs d c
    (by rw [hreg]; rfl) hpv hver hvi hfs
  refine ⟨?_, ?_, ?_⟩
  · rw [h]
    by_cases hd : "sha512-" ++ sha512base64 c = d.integrity
    · rw [if_pos hd]
      rfl
    · rw [if_neg hd]
      rfl
  · intro hd
    rw [h, if_pos hd]
    refine ⟨rfl, ?_, ?_⟩
    · show alookup (aput (loadManifest w.manifestDoc) (keyFor pkg pv)
        { path := cachePathFor pkg pv, integrity := d.integrity })
        (keyFor pkg pv) = _
      rw [alookup_aput_self, ← hd]
    · exact hfs
  · intro hd
    rw [h, if_neg hd]
    exact ⟨rfl, alookup_aremove_self _ _, rfl⟩

/-- C10 witness: the skip-download-but-verify behaviour at a concrete
good pre-existing file and a concrete tampered one. -/
theorem c10_witness :
    (((cachePackage preSeededWorld "lodash" "1.0.0").2.2.filter
        Op.isDownload = []) ∧
     ("sha512-" ++ sha512base64 demoBytes
        = (missDist demoUrl demoBytes).integrity →
      (cachePackage preSeededWorld "lodash" "1.0.0").1
        = .ok (cachePathFor "lodash" "1.0.0") ∧
      alookup (loadManifest
          (cachePackage preSeededWorld "lodash" "1.0.0").2.1.manifestDoc)
          (keyFor "lodash" "1.0.0")
        = some { path := cachePathFor "lodash" "1.0.0",
                 integrity := "sha512-" ++ sha512base64 demoBytes } ∧
      alookup (cachePackage preSeededWorld "lodash" "1.0.0").2.1.fs
        (cachePathFor "lodash" "1.0.0") = some demoBytes) ∧
     (¬ "sha512-" ++ sha512base64 demoBytes
        = (missDist demoUrl demoBytes).integrity →
      (cachePackage preSeededWorld "lodash" "1.0.0").1
        = .error (.integrityFailed "lodash" "1.0.0") ∧
      alookup (cachePackage preSeededWorld "lodash" "1.0.0").2.1.fs
        (cachePathFor "lodash" "1.0.0") = none ∧
      (cachePackage preSeededWorld "lodash" "1.0.0").2.1.manifestDoc
        = preSeededWorld.manifestDoc)) ∧
    ((cachePackage tamperedWorld "lodash" "1.0.0").2.2.filter
        Op.isDownload = []) ∧
    ((cachePackage tamperedWorld "lodash" "1.0.0").1
        = .error (.integrityFailed "lodash" "1.0.0") ∧
     alookup (cachePackage tamperedWorld "lodash" "1.0.0").2.1.fs
        (cachePathFor "lodash" "1.0.0") = none ∧
     (cachePackage tamperedWorld "lodash" "1.0.0").2.1.manifestDoc
        = tamperedWorld.manifestDoc) :=
  ⟨c10_theorem preSeededWorld "lodash" "1.0.0" "1.0.0" demoDoc
     [("1.0.0", { dist := some (missDist demoUrl demoBytes) })]
     (missDist demoUrl demoBytes) demoBytes
     (by decide) (resolvesTo_literal demoDoc "1.0.0" (by decide))
     (by decide) (by decide) (by decide),
   (c10_theorem tamperedWorld "lodash" "1.0.0" "1.0.0" demoDoc
     [("1.0.0", { dist := some (missDist demoUrl demoBytes) })]
     (missDist demoUrl demoBytes) "TAMPERED"
     (by decide) (resolvesTo_literal demoDoc "1.0.0" (by decide))
     (by decide) (by decide) (by decide)).1,
   (c10_theorem tamperedWorld "lodash" "1.0.0" "1.0.0" demoDoc
     [("1.0.0", { dist := some (missDist demoUrl demoBytes) })]
     (missDist demoUrl demoBytes) "TAMPERED"
     (by decide) (resolvesTo_literal demoDoc "1.0.0" (by decide))
     (by decide) (by decide) (by decide)).2.2 (by decide)⟩

end AkManager
